import Mathlib

/-!
# Verification of the devconnectbot webhook service

A shallow embedding, in Lean 4, of the two core functions of the repository:

* `verifyWebhook` — GitHub webhook signature verification
  (`src/app/api/webhook/github/route.js`, lines 51–75), together with the
  signature guard of the `POST` handler (lines 79–85);
* `handlePushEvent` — push-event formatting
  (`src/services/github-webhook.js`, lines 27–95).

JavaScript dynamic values are embedded as the inductive type `JSValue`;
JavaScript exceptions (`TypeError` thrown by the formatter body and caught by
its `try`/`catch`) are embedded as `Except Unit`.  Node's `crypto` primitives
are not code of this repository; the HMAC digest is treated as an arbitrary
function parameter, and `crypto.timingSafeEqual` is modelled from the spec as
a step-counted byte-wise comparison (`ctCompare`).
-/
/-- Embedding of the JavaScript values a webhook payload can contain
(JSON values plus `undefined`).  Numbers are modelled as integers; no claim
depends on fractional numbers. -/
inductive JSValue where
  | jsUndefined
  | jsNull
  | bool (b : Bool)
  | num (n : Int)
  | str (s : String)
  | arr (elems : List JSValue)
  | obj (fields : List (String × JSValue))

/-- JavaScript truthiness: `undefined`, `null`, `false`, `0` and `""` are
falsy; every object and array is truthy. -/
def jsTruthy : JSValue → Bool
  | .jsUndefined => false
  | .jsNull => false
  | .bool b => b
  | .num n => n != 0
  | .str s => s != ""
  | .arr _ => true
  | .obj _ => true

/-- JavaScript `a || b`: returns `a` when truthy, otherwise `b`. -/
def jsOr (a b : JSValue) : JSValue :=
  if jsTruthy a then a else b

/-- Property lookup in an object's field list; a missing key yields
`undefined`. -/
def jsLookup : List (String × JSValue) → String → JSValue
  | [], _ => .jsUndefined
  | (k, v) :: rest, key => if k = key then v else jsLookup rest key

/-- JavaScript member access `v.key`.  Accessing a property of `undefined` or
`null` throws a `TypeError` (embedded as `Except.error ()`); property access on
any other primitive, or a non-index key on an array, yields `undefined`. -/
def jsMember : JSValue → String → Except Unit JSValue
  | .jsUndefined, _ => .error ()
  | .jsNull, _ => .error ()
  | .obj fields, key => .ok (jsLookup fields key)
  | .arr _, _ => .ok .jsUndefined
  | .bool _, _ => .ok .jsUndefined
  | .num _, _ => .ok .jsUndefined
  | .str _, _ => .ok .jsUndefined

/-- JavaScript `SameValueZero` equality as used by `Set`, restricted to the
values produced by `JSON.parse`: primitives compare by value; objects and
arrays compare by reference, and since `JSON.parse` builds a fresh node for
every position of the document, two distinct positions never hold the same
reference — so composite values are never equal here. -/
def jsSameValue : JSValue → JSValue → Bool
  | .jsUndefined, .jsUndefined => true
  | .jsNull, .jsNull => true
  | .bool a, .bool b => a == b
  | .num a, .num b => a == b
  | .str a, .str b => a == b
  | _, _ => false

/-- JavaScript `Array.prototype.join` / `String.prototype.split` style
separator join: `joinSep sep [a, b, c] = a ++ sep ++ b ++ sep ++ c`. -/
def joinSep (sep : String) : List String → String
  | [] => ""
  | [x] => x
  | x :: y :: rest => x ++ sep ++ joinSep sep (y :: rest)

/-- Template-literal string conversion of a `JSValue`, with fuel bounding the
array-nesting depth (the boolean marks conversion of an array element, where
`null` and `undefined` render as the empty string).  `String(v)` renders
`undefined`/`null`/booleans/numbers literally, arrays as the comma-join of
their elements, and plain objects as `"[object Object]"`. -/
def jsToStrN : JSValue → Bool → Nat → String
  | .jsUndefined, inArr, _ => if inArr then "" else "undefined"
  | .jsNull, inArr, _ => if inArr then "" else "null"
  | .bool b, _, _ => if b then "true" else "false"
  | .num n, _, _ => toString n
  | .str s, _, _ => s
  | .obj _, _, _ => "[object Object]"
  | .arr _, _, 0 => ""
  | .arr xs, _, fuel + 1 => joinSep "," (xs.map (fun v => jsToStrN v true fuel))

mutual

/-- Node count of a `JSValue`; an upper bound on its array-nesting depth. -/
def jsSize : JSValue → Nat
  | .jsUndefined => 1
  | .jsNull => 1
  | .bool _ => 1
  | .num _ => 1
  | .str _ => 1
  | .arr xs => 1 + jsSizeElems xs
  | .obj fields => 1 + jsSizeFields fields
termination_by structural v => v

/-- Total node count of a list of values. -/
def jsSizeElems : List JSValue → Nat
  | [] => 0
  | v :: vs => jsSize v + jsSizeElems vs
termination_by structural l => l

/-- Total node count of an object's field list. -/
def jsSizeFields : List (String × JSValue) → Nat
  | [] => 0
  | (_, v) :: rest => jsSize v + jsSizeFields rest
termination_by structural l => l

end

/-- Template-literal conversion `String(v)`.  `jsSize v` bounds the nesting
depth of `v`, so the fuel never runs out. -/
def jsToString (v : JSValue) : String :=
  jsToStrN v false (jsSize v)

/-- Characters of `l` before the first occurrence of `pat` , then `repl`, then
the rest: JavaScript `String.prototype.replace` with a string pattern, which
replaces only the first occurrence (the whole input when `pat` does not
occur). -/
def replaceFirstData (pat repl : List Char) : List Char → List Char
  | [] => if pat = [] then repl else []
  | c :: cs =>
      if pat.isPrefixOf (c :: cs) then repl ++ (c :: cs).drop pat.length
      else c :: replaceFirstData pat repl cs

/-- JavaScript `s.replace(pat, repl)` with a string pattern: first occurrence
only. -/
def jsReplaceFirst (s pat repl : String) : String :=
  ⟨replaceFirstData pat.data repl.data s.data⟩

/-- JavaScript `s.split(sep)[0]` for `sep = "\n"`: the characters of `s`
before the first newline. -/
def jsFirstLine (s : String) : String :=
  ⟨s.data.takeWhile (fun c => c ≠ '\n')⟩

/-- Insertion-order deduplication, as performed by `[...new Set(xs)]`: keep
the first occurrence of each element (w.r.t. `eq`), drop later duplicates.
`seen` accumulates the representatives already emitted. -/
def dedupBy (eq : α → α → Bool) (seen : List α) : List α → List α
  | [] => []
  | x :: xs =>
      if seen.any (eq x) then dedupBy eq seen xs
      else x :: dedupBy eq (x :: seen) xs

/-- Deduplication of a string list by value, keeping first occurrences. -/
def strDedup (xs : List String) : List String :=
  dedupBy (fun a b => a == b) [] xs

/-! ## Signature verification (`src/app/api/webhook/github/route.js`) -/
/-- Byte sequence of `Buffer.from(s)`.  `Buffer.from` produces the UTF-8 bytes
of the string; the model uses the character sequence instead.  Both encodings
are injective, so the Boolean outcome of every comparison below is identical;
only which of the two false-returning branches fires can differ, for
non-ASCII headers whose character count and byte count disagree. -/
def strBuffer (s : String) : List Char := s.data

/-- Modelled from the spec: Node's `crypto.timingSafeEqual`, the constant-time
equality check (library code, not part of this repository).  It compares the
two buffers position by position unconditionally, accumulating a difference
flag; the second component counts the comparison steps performed, the model's
measure of running time.  The caller checks the lengths first, so the
unequal-length row is never reached there. -/
def ctCompare : List Char → List Char → Bool × Nat
  | [], [] => (true, 0)
  | x :: xs, y :: ys =>
      ((x == y && (ctCompare xs ys).1), (ctCompare xs ys).2 + 1)
  | _, _ => (false, 0)

/-- Embedding of `verifyWebhook` (route.js lines 51–75).  The HMAC-SHA256 hex
digest primitive from Node's `crypto` is an arbitrary parameter `hmacHex`
(body, then secret); `secret` models `process.env.GITHUB_WEBHOOK_SECRET`
(`none` = unset), and `signature` models the header argument (`none` =
`undefined`, on which `Buffer.from` throws and the `catch` returns `false`).
The function returns `false` when the secret is unset or empty (`!secret`),
when the buffer lengths differ, or on any caught error; otherwise it returns
the constant-time comparison of the two buffers. -/
def verifyWebhook (hmacHex : String → String → String) (secret : Option String)
    (rawBody : String) (signature : Option String) : Bool :=
  match secret with
  | none => false
  | some sec =>
    if sec = "" then false
    else
      let digest := "sha256=" ++ hmacHex rawBody sec
      match signature with
      | none => false
      | some sig =>
        let sigBuffer := strBuffer sig
        let digestBuffer := strBuffer digest
        if sigBuffer.length ≠ digestBuffer.length then false
        else (ctCompare sigBuffer digestBuffer).1

/-- Embedding of the signature guard of `POST` (route.js lines 79–85): the
handler reads the `x-hub-signature-256` header (`none` = absent) and the raw
request body via `req.text()`, and rejects unless the header is truthy and
`verifyWebhook(rawBody, signature)` holds.  `JSON.parse` runs only after this
guard. -/
def postSignatureCheck (hmacHex : String → String → String)
    (secret : Option String) (sigHeader : Option String) (rawBody : String) : Bool :=
  match sigHeader with
  | none => false
  | some s => if s = "" then false else verifyWebhook hmacHex secret rawBody (some s)

/-! ## Push-event formatting (`src/services/github-webhook.js`, `handlePushEvent`) -/
/-- Line 30: `payload.pusher || {name: 'Unknown'}` (braces in the source
literal). -/
def resolvePusher (payload : JSValue) : Except Unit JSValue := do
  let p ← jsMember payload "pusher"
  return jsOr p (.obj [("name", .str "Unknown")])

/-- Line 31: `payload.ref || 'refs/heads/unknown'`. -/
def resolveRef (payload : JSValue) : Except Unit JSValue := do
  let r ← jsMember payload "ref"
  return jsOr r (.str "refs/heads/unknown")

/-- Line 32: `payload.repository` defaulted to the unknown-repo object. -/
def resolveRepository (payload : JSValue) : Except Unit JSValue := do
  let r ← jsMember payload "repository"
  return jsOr r (.obj [("name", .str "unknown-repo"), ("full_name", .str "unknown/unknown-repo")])

/-- Line 33: `Array.isArray(payload.commits) ? payload.commits : []`. -/
def resolveCommits (payload : JSValue) : Except Unit (List JSValue) := do
  let c ← jsMember payload "commits"
  match c with
  | .arr xs => return xs
  | _ => return []

/-- Line 36: `ref.replace('refs/heads/', '') || 'unknown'`.  `replace` exists
only on strings; on any truthy non-string `ref` the call throws a
`TypeError`. -/
def branchOf (ref : JSValue) : Except Unit String :=
  match ref with
  | .str s =>
      .ok (if jsReplaceFirst s "refs/heads/" "" = "" then "unknown"
           else jsReplaceFirst s "refs/heads/" "")
  | _ => .error ()

/-- Line 39: `repository.full_name || repository.name || 'unknown/unknown-repo'`,
with JavaScript short-circuit evaluation. -/
def repoFullNameOf (repository : JSValue) : Except Unit JSValue := do
  let fn ← jsMember repository "full_name"
  if jsTruthy fn then return fn
  else
    let nm ← jsMember repository "name"
    if jsTruthy nm then return nm
    else return .str "unknown/unknown-repo"

/-- Line 40: `commits[0] && commits[0].message ? commits[0].message.split('\n')[0]
: 'No commit message provided'`.  A truthy non-string message has no `split`
and throws. -/
def topCommitMessageOf (commits : List JSValue) : Except Unit String :=
  match commits[0]? with
  | none => .ok "No commit message provided"
  | some c0 =>
      if jsTruthy c0 then do
        let m ← jsMember c0 "message"
        if jsTruthy m then
          match m with
          | .str s => return jsFirstLine s
          | _ => .error ()
        else return "No commit message provided"
      else .ok "No commit message provided"

/-- Lines 43–45, the body of the `map`: `commit.message ?
commit.message.split('\n')[0] : 'No message'`, prefixed `"  - "`.  When the
commit itself is `null` or `undefined`, the member access throws. -/
def commitBullet (c : JSValue) : Except Unit String := do
  let m ← jsMember c "message"
  if jsTruthy m then
    match m with
    | .str s => return "  - " ++ jsFirstLine s
    | _ => .error ()
  else return "  - No message"

/-- JavaScript `Array.prototype.map` over a throwing body: apply `f` left to
right, propagating the first exception. -/
def mapExcept (f : α → Except Unit β) : List α → Except Unit (List β)
  | [] => .ok []
  | a :: as => do
      let b ← f a
      let bs ← mapExcept f as
      return b :: bs

/-- Lines 43–46: `commits.slice(0, 2).map(...).join('\n') || '  - None'`. -/
def commitMessagesOf (commits : List JSValue) : Except Unit String := do
  let bullets ← mapExcept commitBullet (commits.take 2)
  return (if joinSep "\n" bullets = "" then "  - None" else joinSep "\n" bullets)

/-- Spreading `...v` into `push`: arrays spread to their elements, strings to
their characters; any other value is not iterable and throws. -/
def spreadIter (v : JSValue) : Except Unit (List JSValue) :=
  match v with
  | .arr xs => .ok xs
  | .str s => .ok (s.data.map (fun c => .str (String.singleton c)))
  | _ => .error ()

/-- Lines 49–56: the `forEach` that pushes each commit''s truthy `added`,
`modified` and `removed` fields into three accumulators. -/
def collectFiles : List JSValue → Except Unit (List JSValue × List JSValue × List JSValue)
  | [] => .ok ([], [], [])
  | c :: cs => do
      let a ← jsMember c "added"
      let ha ← if jsTruthy a then spreadIter a else pure []
      let m ← jsMember c "modified"
      let hm ← if jsTruthy m then spreadIter m else pure []
      let r ← jsMember c "removed"
      let hr ← if jsTruthy r then spreadIter r else pure []
      let rest ← collectFiles cs
      return (ha ++ rest.1, hm ++ rest.2.1, hr ++ rest.2.2)

/-- Line 63: `files.length ? files.map(f => `  - ${f}`).join('\n') : '  - None'`. -/
def formatFileList (files : List JSValue) : String :=
  if files.length = 0 then "  - None"
  else joinSep "\n" (files.map (fun f => "  - " ++ jsToString f))

/-- Lines 69–70 (and 92): `now.toISOString().replace('T', ' ').slice(0, 19) +
' UTC'`.  The clock is injected: `isoNow` stands for the value of
`new Date().toISOString()`. -/
def mkTimestamp (isoNow : String) : String :=
  String.mk ((replaceFirstData ['T'] [' '] isoNow.data).take 19) ++ " UTC"

/-- Lines 28–89, the `try` body of `handlePushEvent`: resolve defaults,
derive the branch, count commits, aggregate and deduplicate file changes, and
assemble the fixed template.  An embedded `Except.error` is a thrown
`TypeError`. -/
def handlePushBody (isoNow : String) (payload : JSValue) : Except Unit String := do
  let pusher ← resolvePusher payload
  let ref ← resolveRef payload
  let repository ← resolveRepository payload
  let commits ← resolveCommits payload
  let branch ← branchOf ref
  let commitCount := commits.length
  let pusherName ← jsMember pusher "name"
  let repoFullName ← repoFullNameOf repository
  let topCommitMessage ← topCommitMessageOf commits
  let commitMessages ← commitMessagesOf commits
  let files ← collectFiles commits
  let addedFiles := (dedupBy jsSameValue [] files.1).take 3
  let modifiedFiles := (dedupBy jsSameValue [] files.2.1).take 3
  let removedFiles := (dedupBy jsSameValue [] files.2.2).take 3
  let addedText := "➕ *Added*:\n" ++ formatFileList addedFiles
  let modifiedText := "✏\uFE0F *Modified*:\n" ++ formatFileList modifiedFiles
  let removedText := "🗑\uFE0F *Removed*:\n" ++ formatFileList removedFiles
  let timestamp := mkTimestamp isoNow
  return "🚀 *New Push Alert* 🚀\n" ++
    "──────────────────\n\n" ++
    "👤 *Pusher*: @" ++ jsToString pusherName ++ "\n\n" ++
    "📦 *Repository*: " ++ jsToString repoFullName ++ "\n\n" ++
    "🌿 *Branch*: " ++ branch ++ "\n\n" ++
    "🔢 *Commits*: " ++ toString commitCount ++
      (if commitCount = 0 then " (No commits found)" else "") ++ "\n\n" ++
    "📜 *Commit Messages*:\n" ++ commitMessages ++ "\n\n" ++
    "📝 *Top Commit*: " ++ topCommitMessage ++ "\n\n" ++
    addedText ++ "\n\n" ++
    modifiedText ++ "\n\n" ++
    removedText ++ "\n\n" ++
    "🕒 *Pushed At*: " ++ timestamp ++ "\n" ++
    "──────────────────\n\n"

/-- Lines 27–95: `handlePushEvent` with its `try`/`catch` — any exception in
the body degrades to the fixed fallback message (lines 90–94). -/
def handlePushEvent (isoNow : String) (payload : JSValue) : String :=
  match handlePushBody isoNow payload with
  | .ok s => s
  | .error _ => "⚠\uFE0F *Push processing failed* ⚠\uFE0F\n🕒 *At*: " ++ mkTimestamp isoNow

/-! ## Structured commits and their embedding into payloads -/
/-- A push-event commit as described by the data model: an optional `message`
and optional `added`/`modified`/`removed` file-path lists. -/
structure CommitR where
  message : Option String := none
  added : Option (List String) := none
  modified : Option (List String) := none
  removed : Option (List String) := none

/-- Object entry for an optional field: present fields contribute one
key/value pair, absent fields contribute nothing. -/
def optEntry (k : String) (f : α → JSValue) : Option α → List (String × JSValue)
  | some a => [(k, f a)]
  | none => []

/-- The JSON object a `CommitR` denotes. -/
def CommitR.toJS (c : CommitR) : JSValue :=
  .obj (optEntry "message" .str c.message ++
        optEntry "added" (fun xs => .arr (xs.map .str)) c.added ++
        optEntry "modified" (fun xs => .arr (xs.map .str)) c.modified ++
        optEntry "removed" (fun xs => .arr (xs.map .str)) c.removed)

/-- A payload whose only field is a `commits` array of structured commits. -/
def payloadOfCommits (cs : List CommitR) : JSValue :=
  .obj [("commits", .arr (cs.map CommitR.toJS))]

/-- Commit-message bullet a structured commit produces: the first line of its
message when that is a non-empty string, the `No message` placeholder
otherwise. -/
def msgBullet (c : CommitR) : String :=
  match c.message with
  | some m => if m = "" then "  - No message" else "  - " ++ jsFirstLine m
  | none => "  - No message"

/-- Commit-message section: bullets of the first two commits, or a single
`None` line when there are no commits. -/
def msgSection (cs : List CommitR) : String :=
  if cs.isEmpty then "  - None" else joinSep "\n" ((cs.take 2).map msgBullet)

/-- Top-commit line: first line of the first commit's message when that is a
non-empty string, the placeholder otherwise. -/
def topMsg (cs : List CommitR) : String :=
  match cs with
  | [] => "No commit message provided"
  | c :: _ =>
      match c.message with
      | some m => if m = "" then "No commit message provided" else jsFirstLine m
      | none => "No commit message provided"

/-- Concatenation of the `added` lists of all commits, in commit order. -/
def allAdded (cs : List CommitR) : List String :=
  cs.flatMap (fun c => c.added.getD [])

/-- Concatenation of the `modified` lists of all commits, in commit order. -/
def allModified (cs : List CommitR) : List String :=
  cs.flatMap (fun c => c.modified.getD [])

/-- Concatenation of the `removed` lists of all commits, in commit order. -/
def allRemoved (cs : List CommitR) : List String :=
  cs.flatMap (fun c => c.removed.getD [])

/-- Bulleted rendering of a string list, `"  - None"` when empty. -/
def fileListStr (files : List String) : String :=
  if files = [] then "  - None" else joinSep "\n" (files.map (fun f => "  - " ++ f))

/-- File section for one change type: deduplicate, keep the first three,
render. -/
def fileSection (files : List String) : String :=
  fileListStr ((strDedup files).take 3)

/-- Does `needle` occur as a contiguous subsequence of `hay`? -/
def occursIn (needle : List Char) : List Char → Bool
  | [] => needle.isEmpty
  | c :: t => needle.isPrefixOf (c :: t) || occursIn needle t

/-- Does `needle` occur as a substring of `hay`? -/
def strHasSubstr (hay needle : String) : Bool := occursIn needle.data hay.data

set_option maxRecDepth 100000

set_option maxHeartbeats 1000000

/-- Comparing any buffer with itself succeeds, touching every position. -/
theorem ctCompare_self (a : List Char) : ctCompare a a = (true, a.length) := by
  induction a with
  | nil => rfl
  | cons x xs ih => simp [ctCompare, ih]

/-- Step count of the comparison is a function of the lengths alone. -/
theorem ctCompare_steps (a b : List Char) :
    (ctCompare a b).2 = min a.length b.length := by
  induction a generalizing b with
  | nil => cases b <;> rfl
  | cons x xs ih =>
    cases b with
    | nil => rfl
    | cons y ys => simp [ctCompare, ih, Nat.succ_min_succ]

/-- On equal-length buffers the comparison decides equality. -/
theorem ctCompare_eq (a b : List Char) (h : a.length = b.length) :
    (ctCompare a b).1 = true ↔ a = b := by
  induction a generalizing b with
  | nil => cases b with
    | nil => simp [ctCompare]
    | cons y ys => simp at h
  | cons x xs ih =>
    cases b with
    | nil => simp at h
    | cons y ys =>
      simp only [List.length_cons, Nat.succ.injEq] at h
      simp [ctCompare, ih ys h, List.cons.injEq, Bool.and_eq_true, beq_iff_eq]

/-! ## Helper lemmas -/
theorem strData_append (s t : String) : (s ++ t).data = s.data ++ t.data := by
  cases s; cases t; rfl

theorem strAppend_ne_empty (s t : String) (h : s.data ≠ []) : s ++ t ≠ "" := by
  intro he
  apply h
  have : (s ++ t).data = ("" : String).data := by rw [he]
  rw [strData_append] at this
  exact (List.append_eq_nil.mp this).1

theorem msgBullet_ne_empty (c : CommitR) : msgBullet c ≠ "" := by
  have h1 : ("  - No message" : String) ≠ "" := by decide
  cases hm : c.message with
  | none => simp [msgBullet, hm]
  | some m =>
    by_cases h0 : m = ""
    · simp [msgBullet, hm, h0]
    · simpa [msgBullet, hm, h0] using strAppend_ne_empty "  - " (jsFirstLine m) (by decide)

theorem jsLookup_cons (k : String) (v : JSValue) (rest : List (String × JSValue))
    (key : String) :
    jsLookup ((k, v) :: rest) key = if k = key then v else jsLookup rest key := rfl

theorem jsLookup_optEntry_ne (k key : String) (f : α → JSValue) (o : Option α)
    (rest : List (String × JSValue)) (h : k ≠ key) :
    jsLookup (optEntry k f o ++ rest) key = jsLookup rest key := by
  cases o <;> simp [optEntry, jsLookup, h]

theorem jsLookup_optEntry_eq (k : String) (f : α → JSValue) (o : Option α)
    (rest : List (String × JSValue)) :
    jsLookup (optEntry k f o ++ rest) k =
      (match o with | some a => f a | none => jsLookup rest k) := by
  cases o <;> simp [optEntry, jsLookup]

theorem jsLookup_optEntry_ne_nil (k key : String) (f : α → JSValue) (o : Option α)
    (h : k ≠ key) :
    jsLookup (optEntry k f o) key = .jsUndefined := by
  cases o <;> simp [optEntry, jsLookup, h]

theorem jsLookup_optEntry_eq_nil (k : String) (f : α → JSValue) (o : Option α) :
    jsLookup (optEntry k f o) k =
      (match o with | some a => f a | none => .jsUndefined) := by
  cases o <;> simp [optEntry, jsLookup]

theorem exceptBind_ok (a : α) (f : α → Except ε β) :
    (Except.ok a : Except ε α) >>= f = f a := rfl

theorem exceptBind_error (e : ε) (f : α → Except ε β) :
    (Except.error e : Except ε α) >>= f = .error e := rfl

theorem exceptPure (a : α) : (pure a : Except ε α) = .ok a := rfl

theorem strData_ne_of_ne (s : String) (h : s ≠ "") : s.data ≠ [] := by
  intro hd
  apply h
  cases s with
  | mk d => cases hd; rfl

theorem strAppend_ne_empty_right (s t : String) (h : t ≠ "") : s ++ t ≠ "" := by
  intro he
  apply strData_ne_of_ne t h
  have : (s ++ t).data = ("" : String).data := by rw [he]
  rw [strData_append] at this
  exact (List.append_eq_nil.mp this).2

theorem jsTruthy_toJS (c : CommitR) : jsTruthy c.toJS = true := rfl

theorem jsMember_toJS_message (c : CommitR) :
    jsMember c.toJS "message" =
      .ok (match c.message with | some m => JSValue.str m | none => JSValue.jsUndefined) := by
  show Except.ok (jsLookup _ "message") = _
  simp only [List.append_assoc]
  rw [jsLookup_optEntry_eq]
  cases c.message with
  | none =>
    rw [jsLookup_optEntry_ne _ _ _ _ _ (by decide),
        jsLookup_optEntry_ne _ _ _ _ _ (by decide),
        jsLookup_optEntry_ne_nil _ _ _ _ (by decide)]
  | some m => rfl

theorem jsMember_toJS_added (c : CommitR) :
    jsMember c.toJS "added" =
      .ok (match c.added with
           | some xs => JSValue.arr (xs.map .str)
           | none => JSValue.jsUndefined) := by
  show Except.ok (jsLookup _ "added") = _
  simp only [List.append_assoc]
  rw [jsLookup_optEntry_ne _ _ _ _ _ (by decide), jsLookup_optEntry_eq]
  cases c.added with
  | none =>
    rw [jsLookup_optEntry_ne _ _ _ _ _ (by decide),
        jsLookup_optEntry_ne_nil _ _ _ _ (by decide)]
  | some xs => rfl

theorem jsMember_toJS_modified (c : CommitR) :
    jsMember c.toJS "modified" =
      .ok (match c.modified with
           | some xs => JSValue.arr (xs.map .str)
           | none => JSValue.jsUndefined) := by
  show Except.ok (jsLookup _ "modified") = _
  simp only [List.append_assoc]
  rw [jsLookup_optEntry_ne _ _ _ _ _ (by decide),
      jsLookup_optEntry_ne _ _ _ _ _ (by decide), jsLookup_optEntry_eq]
  cases c.modified with
  | none => rw [jsLookup_optEntry_ne_nil _ _ _ _ (by decide)]
  | some xs => rfl

theorem jsMember_toJS_removed (c : CommitR) :
    jsMember c.toJS "removed" =
      .ok (match c.removed with
           | some xs => JSValue.arr (xs.map .str)
           | none => JSValue.jsUndefined) := by
  show Except.ok (jsLookup _ "removed") = _
  simp only [List.append_assoc]
  rw [jsLookup_optEntry_ne _ _ _ _ _ (by decide),
      jsLookup_optEntry_ne _ _ _ _ _ (by decide),
      jsLookup_optEntry_ne _ _ _ _ _ (by decide), jsLookup_optEntry_eq_nil]
  cases c.removed with
  | none => rfl
  | some xs => rfl

theorem commitBullet_toJS (c : CommitR) : commitBullet c.toJS = .ok (msgBullet c) := by
  unfold commitBullet
  rw [jsMember_toJS_message, exceptBind_ok]
  cases hm : c.message with
  | none => simp [jsTruthy, msgBullet, hm, exceptPure]
  | some m =>
    by_cases h0 : m = "" <;> simp [jsTruthy, msgBullet, hm, h0, exceptPure]

theorem mapExcept_nil (f : α → Except Unit β) : mapExcept f [] = .ok [] := rfl

theorem mapExcept_cons (f : α → Except Unit β) (a : α) (as : List α) :
    mapExcept f (a :: as) =
      f a >>= fun b => mapExcept f as >>= fun bs => .ok (b :: bs) := rfl

theorem commitMessagesOf_toJS (cs : List CommitR) :
    commitMessagesOf (cs.map CommitR.toJS) = .ok (msgSection cs) := by
  match cs with
  | [] => rfl
  | [c] =>
    unfold commitMessagesOf
    simp only [List.map_cons, List.map_nil, List.take, mapExcept_cons, mapExcept_nil,
      commitBullet_toJS, exceptBind_ok]
    simp only [joinSep, msgSection, List.isEmpty_cons, Bool.false_eq_true, if_false,
      if_neg (msgBullet_ne_empty c), List.take, List.map_cons, List.map_nil, exceptPure]
  | c1 :: c2 :: rest =>
    unfold commitMessagesOf
    simp only [List.map_cons, List.take, mapExcept_cons, mapExcept_nil,
      commitBullet_toJS, exceptBind_ok]
    have hne : msgBullet c1 ++ "\n" ++ msgBullet c2 ≠ "" :=
      strAppend_ne_empty_right _ _ (msgBullet_ne_empty c2)
    simp only [joinSep, msgSection, List.isEmpty_cons, Bool.false_eq_true, if_false,
      if_neg hne, List.take, List.map_cons, List.map_nil, exceptPure]

theorem topCommitMessageOf_toJS (cs : List CommitR) :
    topCommitMessageOf (cs.map CommitR.toJS) = .ok (topMsg cs) := by
  cases cs with
  | nil => rfl
  | cons c rest =>
    unfold topCommitMessageOf
    simp only [List.map_cons, List.getElem?_cons_zero, jsTruthy_toJS, if_true]
    rw [jsMember_toJS_message, exceptBind_ok]
    cases hm : c.message with
    | none => simp [jsTruthy, topMsg, hm, exceptPure]
    | some m =>
      by_cases h0 : m = "" <;> simp [jsTruthy, topMsg, hm, h0, exceptPure]

theorem collectFiles_toJS (cs : List CommitR) :
    collectFiles (cs.map CommitR.toJS) =
      .ok ((allAdded cs).map .str, (allModified cs).map .str, (allRemoved cs).map .str) := by
  induction cs with
  | nil => rfl
  | cons c rest ih =>
    unfold collectFiles
    rw [List.map_cons]
    simp only [jsMember_toJS_added, jsMember_toJS_modified, jsMember_toJS_removed,
      exceptBind_ok]
    cases ha : c.added <;> cases hm : c.modified <;> cases hr : c.removed <;>
      simp [jsTruthy, spreadIter, exceptBind_ok, exceptPure, ih, ha, hm, hr,
        allAdded, allModified, allRemoved, Option.getD]

theorem jsToString_str (s : String) : jsToString (.str s) = s := rfl

theorem listAny_map (f : α → β) (p : β → Bool) (l : List α) :
    (l.map f).any p = l.any (fun a => p (f a)) := by
  induction l with
  | nil => rfl
  | cons x t ih => simp [List.any, ih]

theorem dedupBy_map (f : α → β) (eqb : β → β → Bool) (eqa : α → α → Bool)
    (hc : ∀ a b, eqb (f a) (f b) = eqa a b) (seen xs : List α) :
    dedupBy eqb (seen.map f) (xs.map f) = (dedupBy eqa seen xs).map f := by
  induction xs generalizing seen with
  | nil => rfl
  | cons x t ih =>
    simp only [List.map_cons, dedupBy, listAny_map, hc]
    by_cases h : seen.any (eqa x) = true
    · simp only [h, if_true, ih seen]
    · simp only [h, Bool.false_eq_true, if_false, List.map_cons]
      rw [show (f x :: List.map f seen) = (x :: seen).map f from rfl, ih (x :: seen)]

theorem dedupBy_map_str (xs : List String) :
    dedupBy jsSameValue [] (xs.map .str) = (strDedup xs).map .str :=
  dedupBy_map JSValue.str jsSameValue (fun a b => a == b) (fun _ _ => rfl) [] xs

theorem formatFileList_map_str (l : List String) :
    formatFileList (l.map .str) = fileListStr l := by
  cases l with
  | nil => rfl
  | cons x t =>
    simp only [formatFileList, fileListStr, List.map_map, List.length_map, List.length_cons,
      Nat.succ_ne_zero, if_false, List.map_cons, Function.comp, jsToString_str,
      reduceCtorEq]
    simp [Function.comp_def, jsToString_str]

theorem resolvePusher_poc (cs : List CommitR) :
    resolvePusher (payloadOfCommits cs) = .ok (.obj [("name", .str "Unknown")]) := rfl

theorem resolveRef_poc (cs : List CommitR) :
    resolveRef (payloadOfCommits cs) = .ok (.str "refs/heads/unknown") := rfl

theorem resolveRepository_poc (cs : List CommitR) :
    resolveRepository (payloadOfCommits cs) =
      .ok (.obj [("name", .str "unknown-repo"), ("full_name", .str "unknown/unknown-repo")]) := rfl

theorem resolveCommits_poc (cs : List CommitR) :
    resolveCommits (payloadOfCommits cs) = .ok (cs.map CommitR.toJS) := rfl

theorem branchOf_default : branchOf (.str "refs/heads/unknown") = .ok "unknown" := rfl

theorem jsMember_pusherDefault :
    jsMember (.obj [("name", JSValue.str "Unknown")]) "name" = .ok (.str "Unknown") := rfl

theorem repoFullNameOf_default :
    repoFullNameOf (.obj [("name", JSValue.str "unknown-repo"),
      ("full_name", JSValue.str "unknown/unknown-repo")]) =
      .ok (.str "unknown/unknown-repo") := rfl

/-- Master refinement: on a payload holding only a structured `commits` array,
the embedded formatter succeeds and produces the fixed template with every
section given by its specification-level formula. -/
theorem handlePush_model (iso : String) (cs : List CommitR) :
    handlePushEvent iso (payloadOfCommits cs) =
      "🚀 *New Push Alert* 🚀\n" ++
      "──────────────────\n\n" ++
      "👤 *Pusher*: @" ++ "Unknown" ++ "\n\n" ++
      "📦 *Repository*: " ++ "unknown/unknown-repo" ++ "\n\n" ++
      "🌿 *Branch*: " ++ "unknown" ++ "\n\n" ++
      "🔢 *Commits*: " ++ toString cs.length ++
        (if cs.length = 0 then " (No commits found)" else "") ++ "\n\n" ++
      "📜 *Commit Messages*:\n" ++ msgSection cs ++ "\n\n" ++
      "📝 *Top Commit*: " ++ topMsg cs ++ "\n\n" ++
      ("➕ *Added*:\n" ++ fileSection (allAdded cs)) ++ "\n\n" ++
      ("✏\uFE0F *Modified*:\n" ++ fileSection (allModified cs)) ++ "\n\n" ++
      ("🗑\uFE0F *Removed*:\n" ++ fileSection (allRemoved cs)) ++ "\n\n" ++
      "🕒 *Pushed At*: " ++ mkTimestamp iso ++ "\n" ++
      "──────────────────\n\n" := by
  unfold handlePushEvent handlePushBody
  rw [resolvePusher_poc, exceptBind_ok, resolveRef_poc, exceptBind_ok,
      resolveRepository_poc, exceptBind_ok, resolveCommits_poc, exceptBind_ok,
      branchOf_default, exceptBind_ok, jsMember_pusherDefault, exceptBind_ok,
      repoFullNameOf_default, exceptBind_ok, topCommitMessageOf_toJS, exceptBind_ok,
      commitMessagesOf_toJS, exceptBind_ok, collectFiles_toJS, exceptBind_ok]
  simp only [exceptPure, jsToString_str, dedupBy_map_str, ← List.map_take,
    formatFileList_map_str, fileSection, List.length_map]

theorem dedupBy_sublist (eq : α → α → Bool) (seen : List α) (xs : List α) :
    List.Sublist (dedupBy eq seen xs) xs := by
  induction xs generalizing seen with
  | nil => exact List.Sublist.refl _
  | cons x t ih =>
    simp only [dedupBy]
    by_cases h : seen.any (eq x) = true
    · simp only [h, if_true]; exact (ih seen).cons x
    · simp only [h, Bool.false_eq_true, if_false]; exact (ih (x :: seen)).cons₂ x

theorem dedupBy_seen_congr (eq : α → α → Bool) (s1 s2 : List α)
    (h : ∀ a, s1.any (eq a) = s2.any (eq a)) (l : List α) :
    dedupBy eq s1 l = dedupBy eq s2 l := by
  induction l generalizing s1 s2 with
  | nil => rfl
  | cons y t ih =>
    simp only [dedupBy, h y]
    by_cases hy : s2.any (eq y) = true
    · simp only [hy, if_true]; exact ih s1 s2 h
    · simp only [hy, Bool.false_eq_true, if_false]
      have hcons : ∀ a, ((y :: s1).any (eq a)) = ((y :: s2).any (eq a)) := by
        intro a; simp [List.any_cons, h a]
      rw [ih (y :: s1) (y :: s2) hcons]

theorem dedupBy_cons_seen (eq : α → α → Bool) (x : α) (seen : List α) (l : List α) :
    dedupBy eq (x :: seen) l = dedupBy eq seen (l.filter (fun y => !(eq y x))) := by
  induction l generalizing seen with
  | nil => rfl
  | cons y t ih =>
    simp only [dedupBy, List.any_cons, List.filter_cons]
    by_cases hyx : eq y x = true
    · simp [hyx, ih seen]
    · by_cases hs : seen.any (eq y) = true
      · simp [hyx, hs, ih seen, dedupBy]
      · simp only [hyx, Bool.false_eq_true, false_or, hs, if_false, Bool.not_false,
          if_true, dedupBy]
        rw [dedupBy_seen_congr eq (y :: x :: seen) (x :: y :: seen)
              (by intro a; simp [List.any_cons, Bool.or_left_comm]),
            ih (y :: seen)]
        simp [hs]

theorem strDedup_sublist (xs : List String) : List.Sublist (strDedup xs) xs :=
  dedupBy_sublist _ _ xs

theorem strDedup_cons (x : String) (xs : List String) :
    strDedup (x :: xs) = x :: strDedup (xs.filter (fun y => !(y == x))) := by
  unfold strDedup
  simp only [dedupBy, List.any_nil, Bool.false_eq_true, if_false]
  rw [dedupBy_cons_seen]

/-- Resolution of every optional top-level field to its default: when
`pusher`, `ref` and `repository` are absent and `commits` is absent or not an
array, the formatter emits the fully defaulted message. -/
theorem handlePush_defaults (iso : String) (fields : List (String × JSValue))
    (hp : jsLookup fields "pusher" = .jsUndefined)
    (hr : jsLookup fields "ref" = .jsUndefined)
    (hrepo : jsLookup fields "repository" = .jsUndefined)
    (hc : ∀ xs, jsLookup fields "commits" ≠ JSValue.arr xs) :
    handlePushEvent iso (.obj fields) =
      "🚀 *New Push Alert* 🚀\n──────────────────\n\n👤 *Pusher*: @Unknown\n\n📦 *Repository*: unknown/unknown-repo\n\n🌿 *Branch*: unknown\n\n🔢 *Commits*: 0 (No commits found)\n\n📜 *Commit Messages*:\n  - None\n\n📝 *Top Commit*: No commit message provided\n\n➕ *Added*:\n  - None\n\n✏️ *Modified*:\n  - None\n\n🗑️ *Removed*:\n  - None\n\n🕒 *Pushed At*: " ++ mkTimestamp iso ++ "\n" ++ "──────────────────\n\n" := by
  unfold handlePushEvent handlePushBody resolvePusher resolveRef resolveRepository resolveCommits
  simp only [jsMember, exceptBind_ok]
  rw [hp, hr, hrepo]
  generalize hcv : jsLookup fields "commits" = cv
  cases cv with
  | arr xs => exact absurd hcv (hc xs)
  | jsUndefined => rfl
  | jsNull => rfl
  | bool b => rfl
  | num n => rfl
  | str s => rfl
  | obj fs => rfl

/-- A payload whose only field is a string `ref`: the rendered branch is the
first occurrence of `refs/heads/` removed from `ref` (with the falsy-`ref`
and empty-result fallbacks to `unknown`), and everything else defaults. -/
theorem handlePush_refOnly (iso s : String) :
    handlePushEvent iso (.obj [("ref", .str s)]) =
      "🚀 *New Push Alert* 🚀\n" ++
      "──────────────────\n\n" ++
      "👤 *Pusher*: @" ++ "Unknown" ++ "\n\n" ++
      "📦 *Repository*: " ++ "unknown/unknown-repo" ++ "\n\n" ++
      "🌿 *Branch*: " ++
        (if s = "" then "unknown"
         else if jsReplaceFirst s "refs/heads/" "" = "" then "unknown"
         else jsReplaceFirst s "refs/heads/" "") ++ "\n\n" ++
      "🔢 *Commits*: " ++ "0" ++ " (No commits found)" ++ "\n\n" ++
      "📜 *Commit Messages*:\n" ++ "  - None" ++ "\n\n" ++
      "📝 *Top Commit*: " ++ "No commit message provided" ++ "\n\n" ++
      ("➕ *Added*:\n" ++ "  - None") ++ "\n\n" ++
      ("✏\uFE0F *Modified*:\n" ++ "  - None") ++ "\n\n" ++
      ("🗑\uFE0F *Removed*:\n" ++ "  - None") ++ "\n\n" ++
      "🕒 *Pushed At*: " ++ mkTimestamp iso ++ "\n" ++
      "──────────────────\n\n" := by
  by_cases h0 : s = ""
  · subst h0; rfl
  · unfold handlePushEvent handlePushBody resolveRef
    simp only [jsMember, exceptBind_ok, jsLookup, if_pos rfl, jsOr, jsTruthy,
      bne_iff_ne, ne_eq, h0, not_false_eq_true, if_true, if_neg h0]
    rfl

theorem strEq_of_data (s t : String) (h : s.data = t.data) : s = t := by
  cases s; cases t; cases h; rfl

theorem strAppend_left_cancel (a x y : String) (h : a ++ x = a ++ y) : x = y := by
  apply strEq_of_data
  have hd := congrArg String.data h
  rw [strData_append, strData_append] at hd
  exact List.append_cancel_left hd

theorem verifyAccepts (hmacHex : String → String → String) (B S : String) (hS : S ≠ "") :
    verifyWebhook hmacHex (some S) B (some ("sha256=" ++ hmacHex B S)) = true := by
  simp only [verifyWebhook]
  rw [if_neg hS]
  simp [strBuffer, ctCompare_self]

theorem verifyRejects (hmacHex : String → String → String) (S raw sig : String)
    (hS : S ≠ "") (hne : sig ≠ "sha256=" ++ hmacHex raw S) :
    verifyWebhook hmacHex (some S) raw (some sig) = false := by
  simp only [verifyWebhook]
  rw [if_neg hS]
  by_cases hl : (strBuffer sig).length = (strBuffer ("sha256=" ++ hmacHex raw S)).length
  · simp only [strBuffer] at hl
    simp only [strBuffer, ne_eq, hl, not_true_eq_false, Bool.false_eq_true, if_false]
    have hd : sig.data ≠ ("sha256=" ++ hmacHex raw S).data :=
      fun hdd => hne (strEq_of_data _ _ hdd)
    rcases hb : (ctCompare sig.data ("sha256=" ++ hmacHex raw S).data).1 with _ | _
    · rfl
    · exact absurd ((ctCompare_eq _ _ hl).mp hb) hd
  · rw [if_pos (by simpa [strBuffer] using hl)]

/-! ## Claim theorems: signature verification -/
/-- C1, counterexample: with the secret set to the empty string, verifying a
body against its own correctly formatted digest still returns `false` — the
claim, which quantifies over every secret, fails at `S = ""` (the
`!secret` guard fires before any comparison). -/
theorem verify_roundTrip_cex :
    verifyWebhook (fun _ _ => "00") (some "") "body"
      (some ("sha256=" ++ (fun _ _ => "00") "body" "")) = false := rfl

/-- C1 (amended): for every body `B` and every set, non-empty secret `S`,
verifying `B` against `"sha256=" ++ hmacHex B S` returns `true`, for any
digest function. -/
theorem verify_roundTrip (hmacHex : String → String → String) (B S : String)
    (hS : S ≠ "") :
    verifyWebhook hmacHex (some S) B (some ("sha256=" ++ hmacHex B S)) = true :=
  verifyAccepts hmacHex B S hS

/-- Witness for C1's theorem at a concrete digest function, body and secret. -/
theorem verify_roundTrip_witness :
    ("secret" ≠ "") ∧
    verifyWebhook (fun _ _ => "00") (some "secret") "body"
      (some ("sha256=" ++ (fun _ _ => "00") "body" "secret")) = true :=
  ⟨by decide, verify_roundTrip (fun _ _ => "00") "body" "secret" (by decide)⟩

/-- C2: the request handler verifies the exact raw body it received: for any
two byte-distinct bodies whose digests differ, the signature computed from
the raw body itself is accepted while the signature computed from any
re-serialized variant is rejected — the digest is applied to `rawBody`
prior to `JSON.parse`. -/
theorem verify_uses_raw_body (hmacHex : String → String → String)
    (S raw reserialized : String) (hS : S ≠ "")
    (hdiff : hmacHex raw S ≠ hmacHex reserialized S) :
    postSignatureCheck hmacHex (some S) (some ("sha256=" ++ hmacHex raw S)) raw = true ∧
    postSignatureCheck hmacHex (some S) (some ("sha256=" ++ hmacHex reserialized S)) raw = false := by
  constructor
  · simp only [postSignatureCheck]
    rw [if_neg (strAppend_ne_empty "sha256=" _ (by decide))]
    exact verifyAccepts hmacHex raw S hS
  · simp only [postSignatureCheck]
    rw [if_neg (strAppend_ne_empty "sha256=" _ (by decide))]
    exact verifyRejects hmacHex S raw _ hS
      (fun he => hdiff (strAppend_left_cancel "sha256=" _ _ he).symm)

/-- Witness for C2's theorem at a concrete digest function and bodies. -/
theorem verify_uses_raw_body_witness :
    ("s" ≠ "") ∧ ((fun b _ => b : String → String → String) "a" "s" ≠ (fun b _ => b : String → String → String) "b" "s") ∧
    postSignatureCheck (fun b _ => b) (some "s")
      (some ("sha256=" ++ (fun b _ => b : String → String → String) "a" "s")) "a" = true ∧
    postSignatureCheck (fun b _ => b) (some "s")
      (some ("sha256=" ++ (fun b _ => b : String → String → String) "b" "s")) "a" = false := by
  have T := verify_uses_raw_body (fun b _ => b) "s" "a" "b" (by decide) (by decide)
  exact ⟨by decide, by decide, T.1, T.2⟩

/-- C3: the verifier returns `false` (it is a total Boolean function, so it
never throws) when the secret is unset, when the secret is empty, when the
signature header is missing (`Buffer.from(undefined)` throws and the `catch`
yields `false`), and when the buffer lengths differ. -/
theorem verify_failure_paths (hmacHex : String → String → String)
    (raw S sig : String) (sigo : Option String) :
    verifyWebhook hmacHex none raw sigo = false ∧
    verifyWebhook hmacHex (some "") raw sigo = false ∧
    verifyWebhook hmacHex (some S) raw none = false ∧
    ((strBuffer sig).length ≠ (strBuffer ("sha256=" ++ hmacHex raw S)).length →
      verifyWebhook hmacHex (some S) raw (some sig) = false) := by
  refine ⟨rfl, by simp [verifyWebhook], ?_, ?_⟩
  · simp only [verifyWebhook]
    by_cases hS : S = "" <;> simp [hS]
  · intro hlen
    simp only [verifyWebhook]
    by_cases hS : S = ""
    · simp [hS]
    · rw [if_neg hS, if_pos (by simpa [strBuffer] using hlen)]

/-- Witness for C3's theorem at concrete inputs with a length mismatch. -/
theorem verify_failure_paths_witness :
    ((strBuffer "x").length ≠ (strBuffer ("sha256=" ++ (fun _ _ => "00" : String → String → String) "b" "s")).length) ∧
    verifyWebhook (fun _ _ => "00") none "b" (some "x") = false ∧
    verifyWebhook (fun _ _ => "00") (some "") "b" (some "x") = false ∧
    verifyWebhook (fun _ _ => "00") (some "s") "b" none = false ∧
    verifyWebhook (fun _ _ => "00") (some "s") "b" (some "x") = false := by
  have T := verify_failure_paths (fun _ _ => "00") "b" "s" "x" (some "x")
  exact ⟨by decide, T.1, T.2.1, T.2.2.1, T.2.2.2 (by decide)⟩

/-- C9: the comparison the verifier uses is constant-time in the model's step
count: on equal-length buffers the number of comparison steps depends only on
the length, never on where the buffers first differ, while the Boolean
outcome decides equality; and after the length guard, `verifyWebhook` returns
exactly this comparison's outcome. -/
theorem verifier_constant_time (a b a' b' : List Char)
    (hab : a.length = b.length) (h1 : a.length = a'.length) (h2 : a'.length = b'.length) :
    (ctCompare a b).2 = (ctCompare a' b').2 ∧
    ((ctCompare a b).1 = true ↔ a = b) ∧
    (∀ (hmacHex : String → String → String) (S raw sig : String), S ≠ "" →
      verifyWebhook hmacHex (some S) raw (some sig) =
        (if (strBuffer sig).length ≠ (strBuffer ("sha256=" ++ hmacHex raw S)).length then false
         else (ctCompare (strBuffer sig) (strBuffer ("sha256=" ++ hmacHex raw S))).1)) := by
  refine ⟨?_, ctCompare_eq a b hab, ?_⟩
  · rw [ctCompare_steps, ctCompare_steps]
    omega
  · intro hmacHex S raw sig hS
    simp only [verifyWebhook]
    rw [if_neg hS]

/-- Witness for C9's theorem at concrete equal-length buffers. -/
theorem verifier_constant_time_witness :
    ((ctCompare "ab".data "cd".data).2 = (ctCompare "xy".data "zw".data).2) ∧
    (((ctCompare "ab".data "cd".data).1 = true) ↔ "ab".data = "cd".data) ∧
    verifyWebhook (fun _ _ => "00") (some "s") "b" (some "sig") =
      (if (strBuffer "sig").length ≠ (strBuffer ("sha256=" ++ (fun _ _ => "00" : String → String → String) "b" "s")).length then false
       else (ctCompare (strBuffer "sig") (strBuffer ("sha256=" ++ (fun _ _ => "00" : String → String → String) "b" "s"))).1) := by
  have T := verifier_constant_time "ab".data "cd".data "xy".data "zw".data
    (by decide) (by decide) (by decide)
  exact ⟨T.1, T.2.1, T.2.2 (fun _ _ => "00") "s" "b" "sig" (by decide)⟩

/-! ## Claim theorems: push-event formatting -/
/-- C4: `handlePushEvent` is a total string-valued function (never throws):
for every payload it either returns the successfully formatted message or,
exactly when the embedded body throws, the fixed fallback message carrying
the timestamp; and on the empty object the body succeeds. -/
theorem handlePushEvent_total (iso : String) (v : JSValue) :
    ((∃ s, handlePushBody iso v = .ok s ∧ handlePushEvent iso v = s) ∨
     (handlePushBody iso v = .error () ∧
       handlePushEvent iso v = "⚠️ *Push processing failed* ⚠️\n🕒 *At*: " ++ mkTimestamp iso)) ∧
    (∃ s, handlePushBody iso (JSValue.obj []) = .ok s) := by
  constructor
  · cases hb : handlePushBody iso v with
    | ok s => exact Or.inl ⟨s, rfl, by simp [handlePushEvent, hb]⟩
    | error e => cases e; exact Or.inr ⟨rfl, by simp [handlePushEvent, hb]⟩
  · exact ⟨_, rfl⟩

/-- C5, counterexample: a payload whose `pusher` object exists but lacks
`name` renders `@undefined`, not `Unknown` — the default applies only when
`payload.pusher` itself is falsy, so the claim "renders Unknown whenever
pusher.name is missing" fails at `payload = obj [pusher ↦ obj []]`. -/
theorem formatter_defaults_cex :
    handlePushEvent "2025-01-02T03:04:05.678Z" (.obj [("pusher", .obj [])]) =
      "🚀 *New Push Alert* 🚀\n──────────────────\n\n👤 *Pusher*: @undefined\n\n📦 *Repository*: unknown/unknown-repo\n\n🌿 *Branch*: unknown\n\n🔢 *Commits*: 0 (No commits found)\n\n📜 *Commit Messages*:\n  - None\n\n📝 *Top Commit*: No commit message provided\n\n➕ *Added*:\n  - None\n\n✏️ *Modified*:\n  - None\n\n🗑️ *Removed*:\n  - None\n\n🕒 *Pushed At*: 2025-01-02 03:04:05 UTC\n──────────────────\n\n" ∧
    strHasSubstr (handlePushEvent "2025-01-02T03:04:05.678Z" (.obj [("pusher", .obj [])]))
      "Pusher*: @undefined" = true ∧
    strHasSubstr (handlePushEvent "2025-01-02T03:04:05.678Z" (.obj [("pusher", .obj [])]))
      "Unknown" = false :=
  ⟨rfl, by decide, by decide⟩

/-- C5 (amended): the documented defaults apply when the optional field
itself is absent (or, for `commits`, not an array): with `pusher`, `ref` and
`repository` absent and `commits` not an array, the pusher renders as
`Unknown`, the branch as `unknown` (from the default ref
`refs/heads/unknown`), the repository as `unknown/unknown-repo`, and the
commit list is empty. -/
theorem formatter_defaults (iso : String) (fields : List (String × JSValue))
    (hp : jsLookup fields "pusher" = .jsUndefined)
    (hr : jsLookup fields "ref" = .jsUndefined)
    (hrepo : jsLookup fields "repository" = .jsUndefined)
    (hc : ∀ xs, jsLookup fields "commits" ≠ JSValue.arr xs) :
    handlePushEvent iso (.obj fields) =
      "🚀 *New Push Alert* 🚀\n──────────────────\n\n👤 *Pusher*: @Unknown\n\n📦 *Repository*: unknown/unknown-repo\n\n🌿 *Branch*: unknown\n\n🔢 *Commits*: 0 (No commits found)\n\n📜 *Commit Messages*:\n  - None\n\n📝 *Top Commit*: No commit message provided\n\n➕ *Added*:\n  - None\n\n✏️ *Modified*:\n  - None\n\n🗑️ *Removed*:\n  - None\n\n🕒 *Pushed At*: " ++ mkTimestamp iso ++ "\n" ++ "──────────────────\n\n" :=
  handlePush_defaults iso fields hp hr hrepo hc

/-- Witness for C5's theorem: the empty object satisfies every hypothesis. -/
theorem formatter_defaults_witness :
    (jsLookup [] "pusher" = JSValue.jsUndefined) ∧ (jsLookup [] "ref" = JSValue.jsUndefined) ∧
    (jsLookup [] "repository" = JSValue.jsUndefined) ∧
    (∀ xs, jsLookup [] "commits" ≠ JSValue.arr xs) ∧
    handlePushEvent "2025-01-02T03:04:05.678Z" (.obj []) =
      "🚀 *New Push Alert* 🚀\n──────────────────\n\n👤 *Pusher*: @Unknown\n\n📦 *Repository*: unknown/unknown-repo\n\n🌿 *Branch*: unknown\n\n🔢 *Commits*: 0 (No commits found)\n\n📜 *Commit Messages*:\n  - None\n\n📝 *Top Commit*: No commit message provided\n\n➕ *Added*:\n  - None\n\n✏️ *Modified*:\n  - None\n\n🗑️ *Removed*:\n  - None\n\n🕒 *Pushed At*: " ++ mkTimestamp "2025-01-02T03:04:05.678Z" ++ "\n" ++ "──────────────────\n\n" := by
  have hc : ∀ xs, jsLookup [] "commits" ≠ JSValue.arr xs := fun xs h => by simp [jsLookup] at h
  exact ⟨rfl, rfl, rfl, hc, formatter_defaults "2025-01-02T03:04:05.678Z" [] rfl rfl rfl hc⟩

/-- C6, counterexample: the branch is derived with `replace`, which removes
the FIRST OCCURRENCE of `refs/heads/` anywhere, not only a prefix: for
`ref = "xrefs/heads/y"` (which does not start with `refs/heads/`) the
rendered branch is `xy`, where prefix-stripping would have left
`xrefs/heads/y`. -/
theorem formatter_branch_cex :
    handlePushEvent "2025-01-02T03:04:05.678Z" (.obj [("ref", .str "xrefs/heads/y")]) =
      "🚀 *New Push Alert* 🚀\n──────────────────\n\n👤 *Pusher*: @Unknown\n\n📦 *Repository*: unknown/unknown-repo\n\n🌿 *Branch*: xy\n\n🔢 *Commits*: 0 (No commits found)\n\n📜 *Commit Messages*:\n  - None\n\n📝 *Top Commit*: No commit message provided\n\n➕ *Added*:\n  - None\n\n✏️ *Modified*:\n  - None\n\n🗑️ *Removed*:\n  - None\n\n🕒 *Pushed At*: 2025-01-02 03:04:05 UTC\n──────────────────\n\n" ∧
    ("refs/heads/".data.isPrefixOf "xrefs/heads/y".data = false) ∧
    strHasSubstr (handlePushEvent "2025-01-02T03:04:05.678Z" (.obj [("ref", .str "xrefs/heads/y")]))
      "Branch*: xy" = true :=
  ⟨rfl, by decide, by decide⟩

/-- C6 (amended): the branch is `ref` with the first occurrence of
`refs/heads/` removed, `unknown` when `ref` is falsy or the result is empty;
in particular `refs/heads/main` renders `main` and an `undefined` ref renders
`unknown`. -/
theorem formatter_branch (iso s : String) :
    (handlePushEvent iso (.obj [("ref", .str s)]) =
      "🚀 *New Push Alert* 🚀\n" ++
      "──────────────────\n\n" ++
      "👤 *Pusher*: @" ++ "Unknown" ++ "\n\n" ++
      "📦 *Repository*: " ++ "unknown/unknown-repo" ++ "\n\n" ++
      "🌿 *Branch*: " ++
        (if s = "" then "unknown"
         else if jsReplaceFirst s "refs/heads/" "" = "" then "unknown"
         else jsReplaceFirst s "refs/heads/" "") ++ "\n\n" ++
      "🔢 *Commits*: " ++ "0" ++ " (No commits found)" ++ "\n\n" ++
      "📜 *Commit Messages*:\n" ++ "  - None" ++ "\n\n" ++
      "📝 *Top Commit*: " ++ "No commit message provided" ++ "\n\n" ++
      ("➕ *Added*:\n" ++ "  - None") ++ "\n\n" ++
      ("✏\uFE0F *Modified*:\n" ++ "  - None") ++ "\n\n" ++
      ("🗑\uFE0F *Removed*:\n" ++ "  - None") ++ "\n\n" ++
      "🕒 *Pushed At*: " ++ mkTimestamp iso ++ "\n" ++
      "──────────────────\n\n") ∧
    jsReplaceFirst "refs/heads/main" "refs/heads/" "" = "main" ∧
    handlePushEvent iso (.obj [("ref", JSValue.jsUndefined)]) =
      "🚀 *New Push Alert* 🚀\n──────────────────\n\n👤 *Pusher*: @Unknown\n\n📦 *Repository*: unknown/unknown-repo\n\n🌿 *Branch*: unknown\n\n🔢 *Commits*: 0 (No commits found)\n\n📜 *Commit Messages*:\n  - None\n\n📝 *Top Commit*: No commit message provided\n\n➕ *Added*:\n  - None\n\n✏️ *Modified*:\n  - None\n\n🗑️ *Removed*:\n  - None\n\n🕒 *Pushed At*: " ++ mkTimestamp iso ++ "\n" ++ "──────────────────\n\n" :=
  ⟨handlePush_refOnly iso s, rfl,
    handlePush_defaults iso [("ref", JSValue.jsUndefined)] rfl rfl rfl
      (fun xs h => by simp [jsLookup] at h)⟩

/-- C7, counterexample: a commit whose `message` is the empty string is
listed as the placeholder `  - No message`, not as the (empty) first line of
its message — the claim "lists exactly the first line of each of the first
two commits' messages" fails at `commits = [ message ↦ "" ]`. -/
theorem formatter_commitMessages_cex :
    handlePushEvent "2025-01-02T03:04:05.678Z"
        (payloadOfCommits [⟨some "", none, none, none⟩]) =
      "🚀 *New Push Alert* 🚀\n──────────────────\n\n👤 *Pusher*: @Unknown\n\n📦 *Repository*: unknown/unknown-repo\n\n🌿 *Branch*: unknown\n\n🔢 *Commits*: 1\n\n📜 *Commit Messages*:\n  - No message\n\n📝 *Top Commit*: No commit message provided\n\n➕ *Added*:\n  - None\n\n✏️ *Modified*:\n  - None\n\n🗑️ *Removed*:\n  - None\n\n🕒 *Pushed At*: 2025-01-02 03:04:05 UTC\n──────────────────\n\n" ∧
    strHasSubstr (handlePushEvent "2025-01-02T03:04:05.678Z"
        (payloadOfCommits [⟨some "", none, none, none⟩]))
      "Commit Messages*:\n  - No message\n" = true ∧
    strHasSubstr (handlePushEvent "2025-01-02T03:04:05.678Z"
        (payloadOfCommits [⟨some "", none, none, none⟩]))
      "Commit Messages*:\n  - \n" = false :=
  ⟨rfl, by decide, by decide⟩

/-- C7 (amended): the commit-message section lists, for each of the first two
commits (ignoring all later ones), the first line of its message when that is
a non-empty string and the `No message` placeholder otherwise, each prefixed
`  - `; an empty commit sequence yields the single `  - None` line.  In
particular messages `a\nb`, `c`, `d` produce exactly the bullets `a` and
`c`. -/
theorem formatter_commitMessages (iso : String) (cs : List CommitR) :
    (handlePushEvent iso (payloadOfCommits cs) =
      "🚀 *New Push Alert* 🚀\n" ++
      "──────────────────\n\n" ++
      "👤 *Pusher*: @" ++ "Unknown" ++ "\n\n" ++
      "📦 *Repository*: " ++ "unknown/unknown-repo" ++ "\n\n" ++
      "🌿 *Branch*: " ++ "unknown" ++ "\n\n" ++
      "🔢 *Commits*: " ++ toString cs.length ++
        (if cs.length = 0 then " (No commits found)" else "") ++ "\n\n" ++
      "📜 *Commit Messages*:\n" ++ (if cs.isEmpty then "  - None"
         else joinSep "\n" ((cs.take 2).map msgBullet)) ++ "\n\n" ++
      "📝 *Top Commit*: " ++ topMsg cs ++ "\n\n" ++
      ("➕ *Added*:\n" ++ fileSection (allAdded cs)) ++ "\n\n" ++
      ("✏\uFE0F *Modified*:\n" ++ fileSection (allModified cs)) ++ "\n\n" ++
      ("🗑\uFE0F *Removed*:\n" ++ fileSection (allRemoved cs)) ++ "\n\n" ++
      "🕒 *Pushed At*: " ++ mkTimestamp iso ++ "\n" ++
      "──────────────────\n\n") ∧
    (∀ c : CommitR, msgBullet c =
      (match c.message with
       | some m => if m = "" then "  - No message" else "  - " ++ jsFirstLine m
       | none => "  - No message")) ∧
    handlePushEvent iso (payloadOfCommits
        [⟨some "a\nb", none, none, none⟩, ⟨some "c", none, none, none⟩,
         ⟨some "d", none, none, none⟩]) =
      "🚀 *New Push Alert* 🚀\n──────────────────\n\n👤 *Pusher*: @Unknown\n\n📦 *Repository*: unknown/unknown-repo\n\n🌿 *Branch*: unknown\n\n🔢 *Commits*: 3\n\n📜 *Commit Messages*:\n  - a\n  - c\n\n📝 *Top Commit*: a\n\n➕ *Added*:\n  - None\n\n✏️ *Modified*:\n  - None\n\n🗑️ *Removed*:\n  - None\n\n🕒 *Pushed At*: " ++ mkTimestamp iso ++ "\n" ++ "──────────────────\n\n" := by
  refine ⟨?_, fun c => rfl, ?_⟩
  · simpa only [msgSection] using handlePush_model iso cs
  · rfl

/-- C8: each of the three file sections aggregates its field across ALL
commits in commit order, deduplicates by value keeping first occurrences,
truncates to at most three entries and renders them as bullets, or `  - None`
when empty; in particular `added = ["x", "x", "y"]` deduplicates to
`["x", "y"]`. -/
theorem formatter_fileSections (iso : String) (cs : List CommitR) :
    (handlePushEvent iso (payloadOfCommits cs) =
      "🚀 *New Push Alert* 🚀\n" ++
      "──────────────────\n\n" ++
      "👤 *Pusher*: @" ++ "Unknown" ++ "\n\n" ++
      "📦 *Repository*: " ++ "unknown/unknown-repo" ++ "\n\n" ++
      "🌿 *Branch*: " ++ "unknown" ++ "\n\n" ++
      "🔢 *Commits*: " ++ toString cs.length ++
        (if cs.length = 0 then " (No commits found)" else "") ++ "\n\n" ++
      "📜 *Commit Messages*:\n" ++ msgSection cs ++ "\n\n" ++
      "📝 *Top Commit*: " ++ topMsg cs ++ "\n\n" ++
      ("➕ *Added*:\n" ++ fileListStr ((strDedup (cs.flatMap (fun c => c.added.getD []))).take 3)) ++ "\n\n" ++
      ("✏\uFE0F *Modified*:\n" ++ fileListStr ((strDedup (cs.flatMap (fun c => c.modified.getD []))).take 3)) ++ "\n\n" ++
      ("🗑\uFE0F *Removed*:\n" ++ fileListStr ((strDedup (cs.flatMap (fun c => c.removed.getD []))).take 3)) ++ "\n\n" ++
      "🕒 *Pushed At*: " ++ mkTimestamp iso ++ "\n" ++
      "──────────────────\n\n") ∧
    strDedup ["x", "x", "y"] = ["x", "y"] ∧
    handlePushEvent iso (payloadOfCommits [⟨none, some ["x", "x", "y"], none, none⟩]) =
      "🚀 *New Push Alert* 🚀\n──────────────────\n\n👤 *Pusher*: @Unknown\n\n📦 *Repository*: unknown/unknown-repo\n\n🌿 *Branch*: unknown\n\n🔢 *Commits*: 1\n\n📜 *Commit Messages*:\n  - No message\n\n📝 *Top Commit*: No commit message provided\n\n➕ *Added*:\n  - x\n  - y\n\n✏️ *Modified*:\n  - None\n\n🗑️ *Removed*:\n  - None\n\n🕒 *Pushed At*: " ++ mkTimestamp iso ++ "\n" ++ "──────────────────\n\n" := by
  refine ⟨?_, rfl, rfl⟩
  · simpa only [fileSection, allAdded, allModified, allRemoved] using handlePush_model iso cs

/-- C10: the displayed file lists are the first three entries of the
first-occurrence deduplication of the concatenated per-commit lists:
`strDedup` is an order-preserving sublist of its input (hence files appear in
commit order, and within a commit in array order), it keeps the first
occurrence of each element and drops the later duplicates, and the displayed
prefix is itself a sublist of the concatenation. -/
theorem formatter_fileOrder (iso : String) (cs : List CommitR) :
    (handlePushEvent iso (payloadOfCommits cs) =
      "🚀 *New Push Alert* 🚀\n" ++
      "──────────────────\n\n" ++
      "👤 *Pusher*: @" ++ "Unknown" ++ "\n\n" ++
      "📦 *Repository*: " ++ "unknown/unknown-repo" ++ "\n\n" ++
      "🌿 *Branch*: " ++ "unknown" ++ "\n\n" ++
      "🔢 *Commits*: " ++ toString cs.length ++
        (if cs.length = 0 then " (No commits found)" else "") ++ "\n\n" ++
      "📜 *Commit Messages*:\n" ++ msgSection cs ++ "\n\n" ++
      "📝 *Top Commit*: " ++ topMsg cs ++ "\n\n" ++
      ("➕ *Added*:\n" ++ fileSection (allAdded cs)) ++ "\n\n" ++
      ("✏\uFE0F *Modified*:\n" ++ fileSection (allModified cs)) ++ "\n\n" ++
      ("🗑\uFE0F *Removed*:\n" ++ fileSection (allRemoved cs)) ++ "\n\n" ++
      "🕒 *Pushed At*: " ++ mkTimestamp iso ++ "\n" ++
      "──────────────────\n\n") ∧
    (∀ xs : List String, List.Sublist (strDedup xs) xs) ∧
    (∀ (x : String) (xs : List String),
        strDedup (x :: xs) = x :: strDedup (xs.filter (fun y => !(y == x)))) ∧
    (∀ xs : List String, List.Sublist ((strDedup xs).take 3) xs) :=
  ⟨handlePush_model iso cs, strDedup_sublist, strDedup_cons,
    fun xs => (List.take_sublist 3 (strDedup xs)).trans (strDedup_sublist xs)⟩
